import Mathlib

/-!
Verification of the web-page-analyzer core (document extractor, link
classifier, accessibility prober, analysis orchestrator) against its
natural-language specification.

The Go sources embedded here:
- `internal/analyzer` : `Analyze`, `traverseTags`, `containsPasswordInput`
- `internal/service`  : `AnalyzePage`, `countInaccessibleLinks`,
  `linkCheckerWorker`, `AnalysisServiceResultDTO`

HTML parsing (golang.org/x/net/html) is treated as an external capability:
a parsed document is a tree of typed nodes, which we model directly.
Network effects are modelled by oracles: a `FetchOutcome` for the page
fetch and a per-URL `ProbeResponse` oracle for the HEAD probes.
-/

namespace WebPageAnalyzer

/-- Node kinds of golang.org/x/net/html (`html.NodeType`); only the kinds
the analyzer inspects are distinguished. -/
inductive NodeKind where
  | element
  | text
  | doctype
  | document
  | comment
  deriving DecidableEq, Repr

/-- One attribute of an HTML node (`html.Attribute`): key and value. -/
structure HtmlAttr where
  key : String
  val : String
  deriving DecidableEq, Repr

/-- A parsed HTML node (`html.Node`): kind, tag/text data, attributes and
the ordered child list (Go's FirstChild/NextSibling chain). -/
inductive HtmlNode where
  | mk (kind : NodeKind) (data : String) (attrs : List HtmlAttr) (children : List HtmlNode)

/-- The node's kind (`n.Type` in Go). -/
def HtmlNode.kind : HtmlNode → NodeKind
  | .mk k _ _ _ => k

/-- The node's data: tag name for elements, text for text nodes (`n.Data`). -/
def HtmlNode.data : HtmlNode → String
  | .mk _ d _ _ => d

/-- The node's attribute list (`n.Attr`). -/
def HtmlNode.attrs : HtmlNode → List HtmlAttr
  | .mk _ _ a _ => a

/-- The node's children in document order (FirstChild/NextSibling chain). -/
def HtmlNode.children : HtmlNode → List HtmlNode
  | .mk _ _ _ c => c

/-- `analyzer.AnalysisResult`: the structural-feature record the extractor
accumulates. Go zero values: empty strings, empty map, false, nil slice. -/
structure AnalysisResult where
  htmlVersion : String
  title : String
  headings : String → Nat
  hasLoginForm : Bool
  links : List String

mutual
/-- `containsPasswordInput` (analyzer): true iff the subtree rooted at the
node contains an input element with a type attribute equal, after
lowercasing, to "password". -/
def containsPasswordInput : HtmlNode → Bool
  | .mk k d attrs children =>
    (k == .element && d == "input" &&
      attrs.any (fun a => a.key == "type" && a.val.toLower == "password"))
    || containsPasswordInputList children

/-- The child-list loop of `containsPasswordInput`. -/
def containsPasswordInputList : List HtmlNode → Bool
  | [] => false
  | c :: cs => containsPasswordInput c || containsPasswordInputList cs
end

/-- The per-node body of `traverseTags` (analyzer): the switch on the
node's type and tag, updating the accumulated result. -/
def processTag (n : HtmlNode) (r : AnalysisResult) : AnalysisResult :=
  let r := if n.kind == .doctype then { r with htmlVersion := "HTML5" } else r
  if n.kind == .element then
    if n.data == "title" then
      match n.children.head? with
      | some c => { r with title := c.data }
      | none => r
    else if n.data == "h1" || n.data == "h2" || n.data == "h3"
        || n.data == "h4" || n.data == "h5" || n.data == "h6" then
      { r with headings := fun k => if k == n.data then r.headings k + 1 else r.headings k }
    else if n.data == "a" then
      { r with links := r.links ++
          n.attrs.filterMap (fun a => if a.key == "href" && a.val != "" then some a.val else none) }
    else if n.data == "form" then
      if r.hasLoginForm then r else { r with hasLoginForm := containsPasswordInput n }
    else r
  else r

mutual
/-- `traverseTags` (analyzer): process the node, then recurse into the
children left to right, threading the accumulated result. -/
def traverseTags : HtmlNode → AnalysisResult → AnalysisResult
  | .mk k d a cs, r => traverseList cs (processTag (.mk k d a cs) r)

/-- The child loop of `traverseTags`. -/
def traverseList : List HtmlNode → AnalysisResult → AnalysisResult
  | [], r => r
  | c :: cs, r => traverseList cs (traverseTags c r)
end

/-- `analyzer.Analyze` applied to an already-parsed document: fresh
zero-valued result, one traversal. (Parsing never fails; the parse-failure
branch of the Go code is handled at the orchestrator boundary.) -/
def Analyze (doc : HtmlNode) : AnalysisResult :=
  traverseTags doc
    { htmlVersion := "", title := "", headings := fun _ => 0,
      hasLoginForm := false, links := [] }

/-! ## Go string primitives

`strings.HasPrefix` and `strings.Contains`, modelled on character lists so
that concrete instances evaluate in the kernel. -/

/-- `strings.HasPrefix s pre`: `s` starts with `pre`. -/
def goStartsWith (s pre : String) : Bool :=
  pre.toList.isPrefixOf s.toList

/-- Substring search on character lists: does `sub` occur as a prefix of
some suffix of the list? -/
def charsContain (sub : List Char) : List Char → Bool
  | [] => sub.isEmpty
  | c :: cs => sub.isPrefixOf (c :: cs) || charsContain sub cs

/-- `strings.Contains s sub`: `sub` occurs as a (contiguous) substring of
`s`; containment, not prefix matching. -/
def goContains (s sub : String) : Bool :=
  charsContain sub.toList s.toList

/-! ## Service layer: link classifier -/

/-- The three slices accumulated by the classification loop in
`AnalyzePage`: `internalLinks`, `externalLinks`, `internalLinksFormatted`. -/
structure ClassifiedLinks where
  internalLinks : List String
  externalLinks : List String
  internalLinksFormatted : List String
  deriving DecidableEq, Repr

/-- One iteration of the classification loop in `AnalyzePage`: a link
starting with "/" goes to the internal list and, expanded with the base
URL, to the formatted list; a link containing the base URL goes to the
internal list; anything else goes to the external list. -/
def classifyStep (baseURL : String) (acc : ClassifiedLinks) (link : String) : ClassifiedLinks :=
  if goStartsWith link "/" then
    { acc with internalLinks := acc.internalLinks ++ [link],
               internalLinksFormatted := acc.internalLinksFormatted ++ [baseURL ++ link] }
  else if goContains link baseURL then
    { acc with internalLinks := acc.internalLinks ++ [link] }
  else
    { acc with externalLinks := acc.externalLinks ++ [link] }

/-- The classification loop of `AnalyzePage` over the raw link list,
starting from empty slices. -/
def classifyLinks (baseURL : String) (links : List String) : ClassifiedLinks :=
  links.foldl (classifyStep baseURL) ⟨[], [], []⟩

/-! ## Service layer: accessibility prober -/

/-- The outcome of one HEAD probe as seen by `linkCheckerWorker`: request
construction failed, the transport failed (network error, timeout,
cancellation), or a response with a status code arrived. -/
inductive ProbeResponse where
  | constructionError
  | transportError
  | status (code : Nat)
  deriving DecidableEq, Repr

/-- The accessibility judgment of `linkCheckerWorker`: a construction or
transport failure is inaccessible; a response is accessible iff its status
code is at least 200 and below 400. -/
def probeAccessible : ProbeResponse → Bool
  | .constructionError => false
  | .transportError => false
  | .status code => !(code < 200 || 400 ≤ code)

/-- `countInaccessibleLinks`: probe every link (the probe oracle gives each
URL its outcome) and count the inaccessible ones. The Go worker pool
produces exactly one boolean per URL and the collection loop increments on
each `false`; the fold is that aggregation in queue order. -/
def countInaccessibleLinks (probe : String → ProbeResponse) (links : List String) : Nat :=
  links.foldl (fun acc link => if probeAccessible (probe link) then acc else acc + 1) 0

/-! ## Service layer: orchestrator -/

/-- `AnalysisServiceResultDTO`: the outward-facing result. The embedded
`AnalysisResult` corresponds to Go's embedded struct. -/
structure AnalysisServiceResultDTO where
  analysis : AnalysisResult
  internalLinksCount : Nat
  externalLinksCount : Nat
  inaccessibleExternalLinksCount : Nat
  inaccessibleInternalLinksCount : Nat
  internalLinks : List String
  externalLinks : List String
  inaccessibleInternalLinks : List String
  inaccessibleExternalLinks : List String

/-- The success path of `AnalyzePage` after the fetch and parse: classify
the extracted links against `baseURL`, run the prober over the external
slice and over the formatted internal slice, and assemble the DTO. The
two slice fields never assigned in the Go literal keep their zero value
(nil slice, modelled as `[]`). -/
def buildDTO (result : AnalysisResult) (baseURL : String)
    (probe : String → ProbeResponse) : AnalysisServiceResultDTO :=
  let cls := classifyLinks baseURL result.links
  { analysis := result
    internalLinksCount := cls.internalLinks.length
    externalLinksCount := cls.externalLinks.length
    inaccessibleExternalLinksCount := countInaccessibleLinks probe cls.externalLinks
    inaccessibleInternalLinksCount := countInaccessibleLinks probe cls.internalLinksFormatted
    internalLinks := cls.internalLinks
    externalLinks := cls.externalLinks
    inaccessibleInternalLinks := []
    inaccessibleExternalLinks := [] }

/-- The environment's answer to the page fetch in `AnalyzePage`: request
construction failed, the transport failed, or a response arrived with a
status code and a body whose parse either fails with an error message or
yields a document tree. -/
inductive FetchOutcome where
  | constructionError (msg : String)
  | transportError (msg : String)
  | success (status : Nat) (body : Except String HtmlNode)

/-- `AnalyzePage`, returning the Go pair (result, error): construction and
transport failures and out-of-range statuses return a nil result and an
error (the status error message embeds the literal code); on success the
extractor, classifier and the two prober calls run and the DTO is
returned with a nil error. `baseURL` is `scheme + "://" + host` from the
parsed page URL. -/
def AnalyzePage (fetch : FetchOutcome) (scheme host : String)
    (probe : String → ProbeResponse) :
    Option AnalysisServiceResultDTO × Option String :=
  match fetch with
  | .constructionError msg => (none, some ("failed to create request: " ++ msg))
  | .transportError msg => (none, some msg)
  | .success status body =>
    if status < 200 || 300 ≤ status then
      (none, some ("request failed with status code: " ++ toString status))
    else
      match body with
      | .error msg => (none, some msg)
      | .ok doc =>
        let baseURL := scheme ++ "://" ++ host
        (some (buildDTO (Analyze doc) baseURL probe), none)

/-! ## Specification-side definitions

These follow the spec's words, to be compared with the definitions
embedded from the source. -/

/-- Spec §4.2: a link is internal when it is root-relative (begins with
"/") or its string form contains the page's origin as a substring. -/
def isInternalLink (baseURL link : String) : Bool :=
  goStartsWith link "/" || goContains link baseURL

mutual
/-- Spec §3: some node of the tree is a form element whose subtree
contains a password-type input. -/
def anyFormWithPassword : HtmlNode → Bool
  | .mk k d a cs =>
    (k == .element && d == "form" && containsPasswordInput (.mk k d a cs))
    || anyFormWithPasswordList cs

/-- `anyFormWithPassword` over a forest, left to right. -/
def anyFormWithPasswordList : List HtmlNode → Bool
  | [] => false
  | c :: cs => anyFormWithPassword c || anyFormWithPasswordList cs
end

/-- The title value a single node contributes: a title element with a
first child contributes that child's text, anything else contributes
nothing. -/
def nodeTitleUpdate (n : HtmlNode) : List String :=
  if n.kind == .element && n.data == "title" then
    match n.children.head? with
    | some c => [c.data]
    | none => []
  else []

mutual
/-- Spec §4.1: the title values contributed by title elements of the tree
in document (pre-)order. -/
def titleTexts : HtmlNode → List String
  | .mk k d a cs => nodeTitleUpdate (.mk k d a cs) ++ titleTextsList cs

/-- `titleTexts` over a forest, left to right. -/
def titleTextsList : List HtmlNode → List String
  | [] => []
  | c :: cs => titleTexts c ++ titleTextsList cs
end

/-- The last element of a list, or the default when the list is empty,
phrased as the left fold "each new value overwrites the previous one". -/
def lastOr (l : List String) (d : String) : String :=
  l.foldl (fun _ t => t) d

/-! ## Classifier lemmas -/

/-- Unrolling the classification loop from an arbitrary accumulator: each
slice is the matching filter of the remaining links appended to the
accumulator. -/
theorem foldl_classifyStep (baseURL : String) (links : List String) (acc : ClassifiedLinks) :
    links.foldl (classifyStep baseURL) acc =
      ⟨acc.internalLinks ++ links.filter (fun l => isInternalLink baseURL l),
       acc.externalLinks ++ links.filter (fun l => !isInternalLink baseURL l),
       acc.internalLinksFormatted ++
         (links.filter (fun l => goStartsWith l "/")).map (fun l => baseURL ++ l)⟩ := by
  induction links generalizing acc with
  | nil => simp
  | cons l ls ih =>
    simp only [List.foldl_cons, List.filter_cons]
    rw [ih]
    unfold classifyStep isInternalLink
    cases h1 : goStartsWith l "/" with
    | true => simp [h1]
    | false =>
      cases h2 : goContains l baseURL with
      | true => simp [h1, h2]
      | false => simp [h1, h2]

/-- The three classifier slices as filters of the raw link list. -/
theorem classifyLinks_eq (baseURL : String) (links : List String) :
    classifyLinks baseURL links =
      ⟨links.filter (fun l => isInternalLink baseURL l),
       links.filter (fun l => !isInternalLink baseURL l),
       (links.filter (fun l => goStartsWith l "/")).map (fun l => baseURL ++ l)⟩ := by
  rw [classifyLinks, foldl_classifyStep]
  simp

/-! ## Prober lemmas -/

/-- Unrolling the aggregation fold from an arbitrary counter: the result
adds the number of inaccessible outcomes among the remaining links. -/
theorem foldl_countInaccessible (probe : String → ProbeResponse)
    (links : List String) (n : Nat) :
    links.foldl (fun acc link => if probeAccessible (probe link) then acc else acc + 1) n
      = n + links.countP (fun l => !probeAccessible (probe l)) := by
  induction links generalizing n with
  | nil => simp
  | cons l ls ih =>
    simp only [List.foldl_cons, List.countP_cons]
    rw [ih]
    cases h : probeAccessible (probe l) <;> simp [h]
    omega

/-- The inaccessible count is the number of links whose probe outcome is
inaccessible. -/
theorem countInaccessibleLinks_eq_countP (probe : String → ProbeResponse)
    (links : List String) :
    countInaccessibleLinks probe links
      = links.countP (fun l => !probeAccessible (probe l)) := by
  rw [countInaccessibleLinks, foldl_countInaccessible]
  simp

/-- The inaccessible count never exceeds the number of probed links. -/
theorem countInaccessibleLinks_le_length (probe : String → ProbeResponse)
    (links : List String) :
    countInaccessibleLinks probe links ≤ links.length := by
  rw [countInaccessibleLinks_eq_countP]
  exact List.countP_le_length _

/-! ## Extractor lemmas -/

/-- `processTag` ors the login-form flag with "this node is a form whose
subtree holds a password input". -/
theorem processTag_hasLoginForm (n : HtmlNode) (r : AnalysisResult) :
    (processTag n r).hasLoginForm
      = (r.hasLoginForm
          || (n.kind == .element && n.data == "form" && containsPasswordInput n)) := by
  obtain ⟨k, d, a, cs⟩ := n
  cases hf : (k == NodeKind.element && d == "form"
      && containsPasswordInput (.mk k d a cs)) with
  | true =>
    simp only [Bool.and_eq_true, beq_iff_eq] at hf
    obtain ⟨⟨hk, hd⟩, hc⟩ := hf
    subst hk; subst hd
    simp only [processTag, HtmlNode.kind, HtmlNode.data, HtmlNode.children, hc]
    cases hr : r.hasLoginForm <;> simp [hr, hc]
  | false =>
    simp only [HtmlNode.kind, HtmlNode.data] at hf ⊢
    rw [hf]
    simp only [Bool.or_false]
    simp only [processTag, HtmlNode.kind, HtmlNode.data, HtmlNode.children]
    repeat' split
    all_goals simp_all

mutual
/-- The traversal ors the login-form flag with the exhaustive any-form
scan of the subtree: the short-circuit in `traverseTags` does not change
the final value. -/
theorem traverseTags_hasLoginForm (n : HtmlNode) (r : AnalysisResult) :
    (traverseTags n r).hasLoginForm = (r.hasLoginForm || anyFormWithPassword n) := by
  match n with
  | .mk k d a cs =>
    rw [traverseTags, traverseList_hasLoginForm cs, processTag_hasLoginForm,
      anyFormWithPassword, HtmlNode.kind, HtmlNode.data]
    rw [Bool.or_assoc]

/-- `traverseTags_hasLoginForm` over a forest. -/
theorem traverseList_hasLoginForm (ls : List HtmlNode) (r : AnalysisResult) :
    (traverseList ls r).hasLoginForm = (r.hasLoginForm || anyFormWithPasswordList ls) := by
  match ls with
  | [] => rw [traverseList, anyFormWithPasswordList, Bool.or_false]
  | c :: cs =>
    rw [traverseList, traverseList_hasLoginForm cs, traverseTags_hasLoginForm c,
      anyFormWithPasswordList, Bool.or_assoc]
end

/-- The traversal folds each node's title contribution over the incoming
title, last contribution winning. -/
theorem processTag_title (n : HtmlNode) (r : AnalysisResult) :
    (processTag n r).title = lastOr (nodeTitleUpdate n) r.title := by
  obtain ⟨k, d, a, cs⟩ := n
  simp only [processTag, nodeTitleUpdate, HtmlNode.kind, HtmlNode.data, HtmlNode.children]
  repeat' split
  all_goals simp_all [lastOr]

mutual
/-- The traversal's final title is the last title contribution of the
subtree, falling back to the incoming title. -/
theorem traverseTags_title (n : HtmlNode) (r : AnalysisResult) :
    (traverseTags n r).title = lastOr (titleTexts n) r.title := by
  match n with
  | .mk k d a cs =>
    rw [traverseTags, traverseList_title cs, processTag_title, titleTexts]
    simp only [lastOr, List.foldl_append]

/-- `traverseTags_title` over a forest. -/
theorem traverseList_title (ls : List HtmlNode) (r : AnalysisResult) :
    (traverseList ls r).title = lastOr (titleTextsList ls) r.title := by
  match ls with
  | [] => rw [traverseList, titleTextsList]; rfl
  | c :: cs =>
    rw [traverseList, traverseList_title cs, traverseTags_title c, titleTextsList]
    simp only [lastOr, List.foldl_append]
end

/-- `lastOr` is the last element of the list, or the default for the
empty list. -/
theorem lastOr_eq_getLastD (l : List String) (d : String) :
    lastOr l d = l.getLastD d := by
  induction l generalizing d with
  | nil => rfl
  | cons a l ih =>
    rw [List.getLastD_cons, ← ih a]
    rfl

/-! ## Orchestrator lemmas -/

/-- A non-nil `AnalyzePage` result only arises from a fetch that
succeeded with a parsed body, and it is the DTO the success path
builds. -/
theorem analyzePage_some (fetch : FetchOutcome) (scheme host : String)
    (probe : String → ProbeResponse) (dto : AnalysisServiceResultDTO)
    (h : (AnalyzePage fetch scheme host probe).1 = some dto) :
    ∃ status doc, fetch = .success status (.ok doc) ∧
      dto = buildDTO (Analyze doc) (scheme ++ "://" ++ host) probe := by
  cases fetch with
  | constructionError m => simp [AnalyzePage] at h
  | transportError m => simp [AnalyzePage] at h
  | success status body =>
    simp only [AnalyzePage] at h
    split at h
    · simp at h
    · cases body with
      | error m => simp at h
      | ok doc =>
        simp at h
        exact ⟨status, doc, rfl, h.symm⟩

/-- The root-relative filter is at most the internal filter, link by
link. -/
theorem filter_slash_le_filter_internal (baseURL : String) (links : List String) :
    (links.filter (fun l => goStartsWith l "/")).length
      ≤ (links.filter (fun l => isInternalLink baseURL l)).length := by
  rw [← List.countP_eq_length_filter, ← List.countP_eq_length_filter]
  refine List.countP_mono_left fun l _ hl => ?_
  simp [isInternalLink, hl]

/-! ## Concrete inputs used by witnesses and counterexamples -/

/-- A text node. -/
def textNode (s : String) : HtmlNode := .mk .text s [] []

/-- An element node. -/
def elemNode (tag : String) (attrs : List HtmlAttr) (cs : List HtmlNode) : HtmlNode :=
  .mk .element tag attrs cs

/-- A small concrete page: doctype, title, two headings, a root-relative
link, a same-origin absolute link, a cross-origin link, and a login
form. -/
def sampleDoc : HtmlNode :=
  .mk .document "" [] [
    .mk .doctype "html" [] [],
    elemNode "html" [] [
      elemNode "head" [] [elemNode "title" [] [textNode "Test Page"]],
      elemNode "body" [] [
        elemNode "h1" [] [textNode "Main Heading"],
        elemNode "a" [⟨"href", "/internal-link"⟩] [textNode "Internal Link"],
        elemNode "a" [⟨"href", "https://example.com/internal"⟩] [textNode "Internal Full"],
        elemNode "a" [⟨"href", "https://external.com"⟩] [textNode "External"],
        elemNode "form" [] [elemNode "input" [⟨"type", "password"⟩] []]
      ]
    ]
  ]

/-- A probe oracle answering 404 to every URL. -/
def probe404 : String → ProbeResponse := fun _ => .status 404

/-- A probe oracle failing at transport level on every URL. -/
def probeNoTransport : String → ProbeResponse := fun _ => .transportError

/-- The DTO `AnalyzePage` builds for `sampleDoc` under `probe404`. -/
def sampleDTO : AnalysisServiceResultDTO :=
  buildDTO (Analyze sampleDoc) ("https" ++ "://" ++ "example.com") probe404

/-- A one-link page whose only anchor is a same-origin absolute URL, so
classification puts it in the internal partition through the
substring-containment rule. -/
def substringInternalDoc : HtmlNode :=
  elemNode "a" [⟨"href", "https://a.com/z"⟩] []

/-- The DTO `AnalyzePage` builds for `substringInternalDoc` when every
probe fails at transport level. -/
def substringInternalDTO : AnalysisServiceResultDTO :=
  buildDTO (Analyze substringInternalDoc) ("https" ++ "://" ++ "a.com") probeNoTransport

/-! ## Claim theorems -/

/-- C1. Link classification: for every raw link list and base URL, the
internal slice is exactly the links that start with "/" or contain the
base URL as a substring, in document order; the external slice is exactly
the remaining links, in document order; the formatted slice is exactly
the root-relative links expanded with the base URL; and the two
partitions together account for every link. -/
theorem link_classification_spec (baseURL : String) (links : List String) :
    (classifyLinks baseURL links).internalLinks
        = links.filter (fun l => goStartsWith l "/" || goContains l baseURL) ∧
    (classifyLinks baseURL links).externalLinks
        = links.filter (fun l => !(goStartsWith l "/" || goContains l baseURL)) ∧
    (classifyLinks baseURL links).internalLinksFormatted
        = (links.filter (fun l => goStartsWith l "/")).map (fun l => baseURL ++ l) ∧
    (classifyLinks baseURL links).internalLinks.length
        + (classifyLinks baseURL links).externalLinks.length = links.length := by
  rw [classifyLinks_eq]
  refine ⟨rfl, rfl, rfl, ?_⟩
  show (links.filter fun l => isInternalLink baseURL l).length
      + (links.filter fun l => !isInternalLink baseURL l).length = links.length
  rw [← List.countP_eq_length_filter, ← List.countP_eq_length_filter]
  induction links with
  | nil => rfl
  | cons l ls ih =>
    rw [List.countP_cons, List.countP_cons]
    cases h : isInternalLink baseURL l <;> simp [h] <;> omega

/-- C2. Probe accessibility judgment: a response is accessible exactly
when its status code lies in [200, 400); request-construction failures
and transport-level failures are inaccessible; boundary table at 199,
200, 299, 300, 399 and 400. -/
theorem probe_accessibility_spec :
    (∀ code : Nat, probeAccessible (.status code) = true ↔ 200 ≤ code ∧ code < 400) ∧
    probeAccessible .constructionError = false ∧
    probeAccessible .transportError = false ∧
    probeAccessible (.status 199) = false ∧
    probeAccessible (.status 200) = true ∧
    probeAccessible (.status 299) = true ∧
    probeAccessible (.status 300) = true ∧
    probeAccessible (.status 399) = true ∧
    probeAccessible (.status 400) = false := by
  refine ⟨fun code => ?_, rfl, rfl, rfl, rfl, rfl, rfl, rfl, rfl⟩
  simp only [probeAccessible, Bool.not_eq_true', Bool.or_eq_false_iff, decide_eq_false_iff_not,
    not_lt, not_le]

/-- C4. Prober aggregation: the inaccessible count is exactly the number
of candidate URLs whose probe outcome is inaccessible; it is invariant
under any reordering of the candidates (commutative aggregation over one
outcome per URL); the empty list yields 0; and when every URL fails at
transport level the count equals the list length. -/
theorem countInaccessible_aggregation (probe : String → ProbeResponse)
    (links links' : List String) (h : links.Perm links') :
    countInaccessibleLinks probe links = countInaccessibleLinks probe links' ∧
    countInaccessibleLinks probe links
        = links.countP (fun l => !probeAccessible (probe l)) ∧
    countInaccessibleLinks probe [] = 0 ∧
    ((∀ l ∈ links, probe l = .transportError)
        → countInaccessibleLinks probe links = links.length) := by
  refine ⟨?_, countInaccessibleLinks_eq_countP probe links, rfl, fun hall => ?_⟩
  · rw [countInaccessibleLinks_eq_countP, countInaccessibleLinks_eq_countP]
    exact h.countP_eq _
  · rw [countInaccessibleLinks_eq_countP]
    refine List.countP_eq_length.mpr fun l hl => ?_
    rw [hall l hl]
    rfl

/-- Witness for C4 at a concrete reordered pair of URL lists. -/
theorem countInaccessible_aggregation_witness :
    countInaccessibleLinks (fun _ => .transportError) ["u", "v"]
        = countInaccessibleLinks (fun _ => .transportError) ["v", "u"] ∧
    countInaccessibleLinks (fun _ => .transportError) ["u", "v"]
        = ["u", "v"].countP
            (fun l => !probeAccessible ((fun _ => ProbeResponse.transportError) l)) ∧
    countInaccessibleLinks (fun _ => ProbeResponse.transportError) [] = 0 ∧
    ((∀ l ∈ ["u", "v"], (fun _ => ProbeResponse.transportError) l = .transportError)
        → countInaccessibleLinks (fun _ => .transportError) ["u", "v"] = ["u", "v"].length) :=
  countInaccessible_aggregation (fun _ => .transportError) ["u", "v"] ["v", "u"] (by decide)

/-- C7. Login-form detection: the extractor's flag is true exactly when
some form element's subtree (descendants at any depth) contains an input
whose type attribute equals "password" case-insensitively; the value
agrees with the exhaustive scan that never short-circuits, so the
short-circuit does not affect the final value. -/
theorem hasLoginForm_iff_spec (doc : HtmlNode) :
    (Analyze doc).hasLoginForm = anyFormWithPassword doc := by
  rw [Analyze, traverseTags_hasLoginForm]
  rfl

/-- C8. Title extraction: the extracted title is the text of the first
child of the last title element (among those having a first child) in
document pre-order — each such title element overwrites the current
value, so the last occurrence wins; the text is kept verbatim. -/
theorem title_last_wins (doc : HtmlNode) :
    (Analyze doc).title = (titleTexts doc).getLastD "" := by
  rw [Analyze, traverseTags_title, lastOr_eq_getLastD]

/-- C3 (amended). Orchestrator probing: on a successful fetch the
extractor runs, then the classifier, then the two prober calls — the
internal-side call over the formatted slice (exactly the root-relative
links expanded with the base URL, not the whole internal partition) and
the external-side call over the external partition — and the DTO carries
the two partitions and the two resulting counts. -/
theorem orchestrator_probe_inputs (scheme host : String) (probe : String → ProbeResponse)
    (status : Nat) (doc : HtmlNode) (dto : AnalysisServiceResultDTO)
    (h : (AnalyzePage (.success status (.ok doc)) scheme host probe).1 = some dto) :
    dto.analysis = Analyze doc ∧
    dto.internalLinks
        = (classifyLinks (scheme ++ "://" ++ host) (Analyze doc).links).internalLinks ∧
    dto.externalLinks
        = (classifyLinks (scheme ++ "://" ++ host) (Analyze doc).links).externalLinks ∧
    dto.inaccessibleInternalLinksCount
        = countInaccessibleLinks probe
            (classifyLinks (scheme ++ "://" ++ host) (Analyze doc).links).internalLinksFormatted ∧
    dto.inaccessibleExternalLinksCount
        = countInaccessibleLinks probe
            (classifyLinks (scheme ++ "://" ++ host) (Analyze doc).links).externalLinks := by
  obtain ⟨st, d, heq, rfl⟩ := analyzePage_some _ scheme host probe dto h
  injection heq with h1 h2
  injection h2 with h3
  subst h3
  exact ⟨rfl, rfl, rfl, rfl, rfl⟩

/-- Witness for C3 (amended) at a concrete successful analysis. -/
theorem orchestrator_probe_inputs_witness :
    sampleDTO.analysis = Analyze sampleDoc ∧
    sampleDTO.internalLinks
        = (classifyLinks ("https" ++ "://" ++ "example.com")
            (Analyze sampleDoc).links).internalLinks ∧
    sampleDTO.externalLinks
        = (classifyLinks ("https" ++ "://" ++ "example.com")
            (Analyze sampleDoc).links).externalLinks ∧
    sampleDTO.inaccessibleInternalLinksCount
        = countInaccessibleLinks probe404
            (classifyLinks ("https" ++ "://" ++ "example.com")
              (Analyze sampleDoc).links).internalLinksFormatted ∧
    sampleDTO.inaccessibleExternalLinksCount
        = countInaccessibleLinks probe404
            (classifyLinks ("https" ++ "://" ++ "example.com")
              (Analyze sampleDoc).links).externalLinks :=
  orchestrator_probe_inputs "https" "example.com" probe404 200 sampleDoc sampleDTO rfl

/-- Counterexample to C3 as stated: a page whose only link is the
same-origin absolute URL "https://a.com/z" puts that link in the internal
partition, yet with every probe failing at transport level the
inaccessible-internal count is 0 — so that internal link was not part of
the internal prober call's input. -/
theorem orchestrator_probe_coverage_cex :
    (AnalyzePage (.success 200 (.ok substringInternalDoc)) "https" "a.com"
        probeNoTransport).1 = some substringInternalDTO ∧
    substringInternalDTO.internalLinks = ["https://a.com/z"] ∧
    (classifyLinks ("https" ++ "://" ++ "a.com")
        (Analyze substringInternalDoc).links).internalLinksFormatted = [] ∧
    substringInternalDTO.inaccessibleInternalLinksCount = 0 := by
  refine ⟨rfl, ?_, ?_, ?_⟩ <;> decide

/-- C5. Result-count invariant: on every successful analysis the stored
counts equal the lengths of the corresponding link lists, and each
inaccessible count is bounded by the size of its partition. -/
theorem result_count_invariant (fetch : FetchOutcome) (scheme host : String)
    (probe : String → ProbeResponse) (dto : AnalysisServiceResultDTO)
    (h : (AnalyzePage fetch scheme host probe).1 = some dto) :
    dto.internalLinksCount = dto.internalLinks.length ∧
    dto.externalLinksCount = dto.externalLinks.length ∧
    dto.inaccessibleInternalLinksCount ≤ dto.internalLinks.length ∧
    dto.inaccessibleExternalLinksCount ≤ dto.externalLinks.length := by
  obtain ⟨status, doc, -, rfl⟩ := analyzePage_some fetch scheme host probe dto h
  refine ⟨rfl, rfl, ?_, countInaccessibleLinks_le_length probe _⟩
  show countInaccessibleLinks probe
      (classifyLinks (scheme ++ "://" ++ host) (Analyze doc).links).internalLinksFormatted
    ≤ (classifyLinks (scheme ++ "://" ++ host) (Analyze doc).links).internalLinks.length
  refine le_trans (countInaccessibleLinks_le_length probe _) ?_
  rw [classifyLinks_eq]
  show ((((Analyze doc).links.filter fun l => goStartsWith l "/").map
      fun l => (scheme ++ "://" ++ host) ++ l)).length
    ≤ ((Analyze doc).links.filter fun l => isInternalLink (scheme ++ "://" ++ host) l).length
  rw [List.length_map]
  exact filter_slash_le_filter_internal _ _

/-- Witness for C5 at a concrete successful analysis. -/
theorem result_count_invariant_witness :
    sampleDTO.internalLinksCount = sampleDTO.internalLinks.length ∧
    sampleDTO.externalLinksCount = sampleDTO.externalLinks.length ∧
    sampleDTO.inaccessibleInternalLinksCount ≤ sampleDTO.internalLinks.length ∧
    sampleDTO.inaccessibleExternalLinksCount ≤ sampleDTO.externalLinks.length :=
  result_count_invariant (.success 200 (.ok sampleDoc)) "https" "example.com" probe404
    sampleDTO rfl

/-- C6. Fetch error handling: a fetched status outside [200, 300) makes
`AnalyzePage` return a nil result and an error message embedding the
literal status code; and whenever `AnalyzePage` reports an error, the
returned result is nil. -/
theorem fetch_error_handling (scheme host : String) (probe : String → ProbeResponse)
    (status : Nat) (body : Except String HtmlNode) (fetch : FetchOutcome)
    (h1 : status < 200 ∨ 300 ≤ status)
    (h2 : ((AnalyzePage fetch scheme host probe).2).isSome = true) :
    AnalyzePage (.success status body) scheme host probe
      = (none, some ("request failed with status code: " ++ toString status)) ∧
    (AnalyzePage fetch scheme host probe).1 = none := by
  constructor
  · have hc : (decide (status < 200) || decide (300 ≤ status)) = true := by
      rcases h1 with h | h <;> simp [h]
    simp only [AnalyzePage, hc, if_true]
  · cases fetch with
    | constructionError m => rfl
    | transportError m => rfl
    | success st bd =>
      simp only [AnalyzePage] at h2 ⊢
      split
      · rfl
      · rename_i hcond
        rw [if_neg hcond] at h2
        cases bd with
        | error m => rfl
        | ok doc => simp at h2

/-- Witness for C6 at status 404 and a concrete transport failure. -/
theorem fetch_error_handling_witness :
    AnalyzePage (.success 404 (.ok sampleDoc)) "https" "example.com" probe404
      = (none, some ("request failed with status code: " ++ toString 404)) ∧
    (AnalyzePage (.transportError "network error") "https" "example.com" probe404).1
      = none :=
  fetch_error_handling "https" "example.com" probe404 404 (.ok sampleDoc)
    (.transportError "network error") (by decide) rfl

/-- C9. Internal probing is restricted to root-relative links: the
inaccessible-internal count is the prober aggregate over exactly the
root-relative raw links expanded with the base URL, and hence is at most
the number of raw links that begin with "/". -/
theorem internal_probe_root_relative (fetch : FetchOutcome) (scheme host : String)
    (probe : String → ProbeResponse) (dto : AnalysisServiceResultDTO)
    (h : (AnalyzePage fetch scheme host probe).1 = some dto) :
    dto.inaccessibleInternalLinksCount
        = countInaccessibleLinks probe
            ((dto.analysis.links.filter (fun l => goStartsWith l "/")).map
              (fun l => (scheme ++ "://" ++ host) ++ l)) ∧
    dto.inaccessibleInternalLinksCount
        ≤ (dto.analysis.links.filter (fun l => goStartsWith l "/")).length := by
  obtain ⟨status, doc, -, rfl⟩ := analyzePage_some fetch scheme host probe dto h
  constructor
  · show countInaccessibleLinks probe
        (classifyLinks (scheme ++ "://" ++ host) (Analyze doc).links).internalLinksFormatted = _
    rw [classifyLinks_eq]
    rfl
  · show countInaccessibleLinks probe
        (classifyLinks (scheme ++ "://" ++ host) (Analyze doc).links).internalLinksFormatted
      ≤ ((Analyze doc).links.filter (fun l => goStartsWith l "/")).length
    refine le_trans (countInaccessibleLinks_le_length probe _) ?_
    rw [classifyLinks_eq]
    show ((((Analyze doc).links.filter fun l => goStartsWith l "/").map
        fun l => (scheme ++ "://" ++ host) ++ l)).length
      ≤ ((Analyze doc).links.filter fun l => goStartsWith l "/").length
    rw [List.length_map]

/-- Witness for C9 at a concrete successful analysis. -/
theorem internal_probe_root_relative_witness :
    sampleDTO.inaccessibleInternalLinksCount
        = countInaccessibleLinks probe404
            ((sampleDTO.analysis.links.filter (fun l => goStartsWith l "/")).map
              (fun l => ("https" ++ "://" ++ "example.com") ++ l)) ∧
    sampleDTO.inaccessibleInternalLinksCount
        ≤ (sampleDTO.analysis.links.filter (fun l => goStartsWith l "/")).length :=
  internal_probe_root_relative (.success 200 (.ok sampleDoc)) "https" "example.com"
    probe404 sampleDTO rfl

/-- C10. On every successful `AnalyzePage` call the DTO's
inaccessible-link list fields are left empty, regardless of the
inaccessible counts. -/
theorem inaccessible_lists_unpopulated (fetch : FetchOutcome) (scheme host : String)
    (probe : String → ProbeResponse) (dto : AnalysisServiceResultDTO)
    (h : (AnalyzePage fetch scheme host probe).1 = some dto) :
    dto.inaccessibleInternalLinks = [] ∧ dto.inaccessibleExternalLinks = [] := by
  obtain ⟨status, doc, -, rfl⟩ := analyzePage_some fetch scheme host probe dto h
  exact ⟨rfl, rfl⟩

/-- Witness for C10 at a concrete successful analysis whose inaccessible
counts are non-zero. -/
theorem inaccessible_lists_unpopulated_witness :
    sampleDTO.inaccessibleInternalLinks = [] ∧
    sampleDTO.inaccessibleExternalLinks = [] :=
  inaccessible_lists_unpopulated (.success 200 (.ok sampleDoc)) "https" "example.com"
    probe404 sampleDTO rfl

end WebPageAnalyzer
